import Mathlib

/-!
Verification of the asynchronous training-job orchestration core of the
openFraming repository, as described by its specification.

The development shallowly embeds two source files:

* `flask_app/modeling/tasks.py` — the background task executors
  (`do_classifier_related_task`, `do_topic_model_related_task`);
* `flask_app/app.py` — the classifier-creation endpoint, the
  training-file upload endpoint with its dataset validator, and the
  stratified train/dev split it performs through sklearn's
  `StratifiedShuffleSplit(n_splits=1, test_size=0.2)`.

Conventions of the embedding:

* Database records are plain structures.  The `save()` calls that the source
  performs in its `finally` blocks are modelled by the record states returned
  in each outcome structure: the `finally` blocks always run, so the returned
  states are exactly the persisted ones.
* Opaque trainers (`ClassifierModel`, `Corpus`/`LDAModeler`) are modelled by
  `Except` parameters carrying either their result or the raised exception.
* Emails dispatched through `emails.Emailer.send_email` are collected in an
  `emails` list; an empty list means the Notification Dispatcher was never
  invoked.
* Helpers that live in repository modules not present in the provided
  sources (`flask_app/utils.py`, `flask_app/db.py`) are modelled from the
  spec; their doc comments say so explicitly.
-/

/-- Numeric metrics mapping returned by the classifier trainer and stored as
a `db.Metrics` row attached to the dev record. -/
abbrev Metrics := List (String × Rat)

/-- One email dispatched through `emails.Emailer.send_email`, recorded as its
template name, destination address and template fields. -/
structure Email where
  email_template_name : String
  to_email : String
  fields : List (String × String)
deriving DecidableEq, Repr

/-- Persisted `db.LabeledSet` record (the train or dev slot of a
classifier). -/
structure LabeledSet where
  training_or_inference_completed : Bool := false
  error_encountered : Bool := false
  metrics : Option Metrics := none
deriving DecidableEq, Repr

/-- Modelled from the spec: a newly created `db.LabeledSet()` (module
`flask_app/db.py` is not part of the provided sources) starts with both
flags false and no metrics — the `NOT_BEGUN` state of the record lifecycle. -/
def freshLabeledSet : LabeledSet := {}

/-- Persisted `db.Classifier` record, restricted to the fields the claims
mention (file-system path bookkeeping such as `dir_path` is not modelled). -/
structure Classifier where
  classifier_id : Nat
  name : String
  category_names : List String
  notify_at_email : String
  train_set : Option LabeledSet := none
  dev_set : Option LabeledSet := none
deriving DecidableEq, Repr

/-- Observable outcome of one classifier-training task: the two record
states persisted by the `finally` block and the emails dispatched. -/
structure ClassifierTaskOutcome where
  train_set : LabeledSet
  dev_set : LabeledSet
  emails : List Email
deriving DecidableEq, Repr

/-- Embeds the `task_type == "training"` branch of
`do_classifier_related_task` in `flask_app/modeling/tasks.py` (the
`"prediction"` branch is not needed by any claim).  `trainResult` stands for
the opaque `ClassifierModel(...)` construction plus its
`train_and_evaluate()` call, both inside the `try` block: `.ok m` is a
returned metrics mapping, `.error e` an exception caught by the broad
`except BaseException` clause.  A `none` result models an `AssertionError`
from the `assert` statements that run before the `try` block, in which case
nothing is saved.  Otherwise the `finally` block saves both records, so the
outcome's record states are the persisted ones. -/
def do_classifier_training_task (clsf : Classifier)
    (trainResult : Except String Metrics) : Option ClassifierTaskOutcome :=
  match clsf.train_set, clsf.dev_set with
  | some train_set, some dev_set =>
    match trainResult with
    | .error _ =>
      some { train_set := { train_set with error_encountered := true }
             dev_set := { dev_set with error_encountered := true }
             emails := [] }
    | .ok metrics =>
      some { train_set := { train_set with training_or_inference_completed := true }
             dev_set := { dev_set with training_or_inference_completed := true
                                       metrics := some metrics }
             emails := [{ email_template_name := "classifier_training_finished"
                          to_email := clsf.notify_at_email
                          fields := [("classifier_name", clsf.name)] }] }
  | _, _ => none

/-- Persisted `db.LDASet` record of a topic model. -/
structure LdaSet where
  lda_completed : Bool := false
  error_encountered : Bool := false
deriving DecidableEq, Repr

/-- Persisted `db.TopicModel` record, restricted to the fields the claims
mention. -/
structure TopicModel where
  id_ : Nat
  name : String
  notify_at_email : String
  lda_set : Option LdaSet := none
deriving DecidableEq, Repr

/-- Observable outcome of one topic-model training task: the record state
persisted by the `finally` block, the emails dispatched, and the exception
propagating out of the task if one escaped uncaught. -/
structure TopicTaskOutcome where
  lda_set : LdaSet
  emails : List Email
  uncaught : Option String
deriving DecidableEq, Repr

/-- Embeds `do_topic_model_related_task` in `flask_app/modeling/tasks.py`.
`buildResult` stands for the `Corpus(...)` and `LDAModeler(...)`
constructions, which are the only statements inside the `try` block;
`spreadsheetResult` stands for the
`lda_modeler.model_topics_to_spreadsheet(...)` call, which the source places
in the `else` block, outside the `try`.  An exception raised there is
therefore not caught: no flag is set, no email is sent, the `finally` block
still saves the record, and the exception propagates (field `uncaught`).
A `none` result models the initial `assert` failing. -/
def do_topic_model_related_task (tm : TopicModel)
    (buildResult : Except String Unit) (spreadsheetResult : Except String Unit) :
    Option TopicTaskOutcome :=
  match tm.lda_set with
  | none => none
  | some lda_set =>
    match buildResult with
    | .error _ =>
      some { lda_set := { lda_set with error_encountered := true }
             emails := []
             uncaught := none }
    | .ok _ =>
      match spreadsheetResult with
      | .error e =>
        some { lda_set := lda_set, emails := [], uncaught := some e }
      | .ok _ =>
        some { lda_set := { lda_set with lda_completed := true }
               emails := [{ email_template_name := "topic_model_training_finished"
                            to_email := tm.notify_at_email
                            fields := [("topic_model_name", tm.name),
                                       ("topic_model_preview_url", "http://NOTDONEYET")] }]
               uncaught := none }

/-- Sample classifier record with freshly created train and dev sets, used
by concrete witnesses. -/
def sampleClassifier : Classifier :=
  { classifier_id := 1
    name := "clf"
    category_names := ["pos", "neg"]
    notify_at_email := "user@example.com"
    train_set := some freshLabeledSet
    dev_set := some freshLabeledSet }

/-- Sample topic model record with a freshly created LDA set, used by
concrete witnesses. -/
def sampleTopicModel : TopicModel :=
  { id_ := 1
    name := "tm"
    notify_at_email := "user@example.com"
    lda_set := some { lda_completed := false, error_encountered := false } }

/-- Modelled from the spec: `utils.Validate.table_has_num_columns` (module
`flask_app/utils.py` is not part of the provided sources) checks that the
table has exactly `n` columns, i.e. every row has exactly `n` entries;
the validator raises a schema error otherwise. -/
def table_has_num_columns (table : List (List String)) (n : Nat) : Bool :=
  table.all (fun row => row.length == n)

/-- Modelled from the spec: `utils.Validate.table_has_headers` checks that
the table's header row is exactly the expected header list,
case-sensitively; the validator raises a schema error otherwise. -/
def table_has_headers (table : List (List String)) (headers : List String) : Bool :=
  decide (table.head? = some headers)

/-- First-occurrence-ordered list of the distinct elements of `l`, with
`seen` already excluded.  This is the key order of a Python
`collections.Counter` (insertion order). -/
def uniqueKeysAux : List String → List String → List String
  | _, [] => []
  | seen, c :: rest =>
    if c ∈ seen then uniqueKeysAux seen rest
    else c :: uniqueKeysAux (c :: seen) rest

/-- First-occurrence-ordered list of the distinct elements of `l`: the keys
of `Counter(category for _, category in table_data)`. -/
def uniqueKeys (l : List String) : List String := uniqueKeysAux [] l

/-- Boolean test that two lists have the same set of elements, embedding the
`set(category_names) != unique_category_names` comparison of the source. -/
def sameSetB (a b : List String) : Bool :=
  a.all (fun c => decide (c ∈ b)) && b.all (fun c => decide (c ∈ a))

/-- Distinct error kinds raised by the training-file validator.  The source
raises them as `BadRequest`/`UnprocessableEntity` with distinct messages;
`insufficientPerCategory` carries the offending category list that the
source joins into its message with commas. -/
inductive ValidationError where
  | schemaError : ValidationError
  | insufficientData : ValidationError
  | categoryMismatch : ValidationError
  | insufficientPerCategory : List String → ValidationError
deriving DecidableEq, Repr

/-- Modelled from the spec: `utils.TEST_SET_SPLIT` (module
`flask_app/utils.py` is not part of the provided sources) is the dev-split
ratio 0.2 of the default 80/20 split, so the source's
`int(len(table_data) * utils.TEST_SET_SPLIT)` is `n / 5` on a natural
row count `n`. -/
def min_num_examples_of (n : Nat) : Nat := n / 5

/-- Embeds `ClassifiersTrainingFile._validate_training_file_and_get_data`
from `flask_app/app.py`: schema checks (two columns, expected header pair),
the minimum-row-count check, the category-set comparison against the
classifier's declared categories, and the at-least-two-examples-per-category
check, in the source's order.  Returns the header row and data rows on
success. -/
def _validate_training_file_and_get_data (category_names : List String)
    (table : List (List String)) :
    Except ValidationError (List String × List (List String)) :=
  -- the source's locals are written out in place here:
  -- `table_data` is `table.tail`, `observed` the category column
  -- `table_data.map (fun row => row.getD 1 "")`, `unique_category_names`
  -- the Counter keys `uniqueKeys observed`, and
  -- `categories_with_less_than_two_exs` the Counter items with count < 2.
  if !(table_has_num_columns table 2) then .error .schemaError
  else if !(table_has_headers table ["example", "category"]) then .error .schemaError
  else if table.tail.length < min_num_examples_of table.tail.length then
    .error .insufficientData
  else if !(sameSetB category_names
      (uniqueKeys (table.tail.map (fun row => row.getD 1 "")))) then
    .error .categoryMismatch
  else if !(((uniqueKeys (table.tail.map (fun row => row.getD 1 ""))).filter
      (fun c => decide ((table.tail.map (fun row => row.getD 1 "")).count c < 2))).isEmpty) then
    .error (.insufficientPerCategory
      ((uniqueKeys (table.tail.map (fun row => row.getD 1 ""))).filter
        (fun c => decide ((table.tail.map (fun row => row.getD 1 "")).count c < 2))))
  else .ok (table.headD [], table.tail)

/-- Request-time errors surfaced by the endpoints.  `valueErrorFromSplit`
stands for the `ValueError` sklearn raises inside
`StratifiedShuffleSplit.split` before yielding any split, which the endpoint
does not catch. -/
inductive RequestError where
  | alreadyExists : RequestError
  | badRequest : String → RequestError
  | validation : ValidationError → RequestError
  | valueErrorFromSplit : RequestError
deriving DecidableEq, Repr

/-- One training job handed to `model_scheduler.add_training_process`
(paths and hyperparameters built from modules outside the provided sources
are not modelled). -/
structure TrainingJob where
  labels : List String
  classifier_id : Nat
deriving DecidableEq, Repr

/-- Observable outcome of one `ClassifiersTrainingFile.post` request: the
HTTP-level result, the persisted classifier record, the files written and
the jobs enqueued. -/
structure PostOutcome where
  response : Except RequestError Unit
  classifier : Classifier
  files : List (String × List (List String))
  jobs : List TrainingJob
deriving Repr

/-- Number of dev rows chosen by `StratifiedShuffleSplit(test_size=0.2)` on
`n` samples: `ceil(0.2 * n)`. -/
def n_test_of (n : Nat) : Nat := (n + 4) / 5

/-- Number of train rows chosen by `StratifiedShuffleSplit(test_size=0.2)`
on `n` samples: the complement `n - ceil(0.2 * n)`. -/
def n_train_of (n : Nat) : Nat := n - n_test_of n

/-- Sum of an allocation function over a list of class names. -/
def sumOver (classes : List String) (f : String → Nat) : Nat :=
  (classes.map f).sum

/-- Relational embedding of sklearn's `_approximate_mode(cnt, draws, rng)`,
restricted to the facts that hold for every random state: each class is
allocated the floor of its proportional share `cnt c * draws / total` or one
more; a class can receive the extra unit only if its proportional remainder
is positive; the extra units go to the classes with the largest remainders
first (so no floored class may have a strictly larger remainder than an
incremented one); and the allocations sum to `draws`. -/
abbrev ApproxMode (classes : List String) (cnt : String → Nat) (draws : Nat)
    (alloc : String → Nat) : Prop :=
  sumOver classes alloc = draws ∧
  (∀ c ∈ classes,
    alloc c = cnt c * draws / sumOver classes cnt ∨
    alloc c = cnt c * draws / sumOver classes cnt + 1) ∧
  (∀ c ∈ classes,
    alloc c = cnt c * draws / sumOver classes cnt + 1 →
    0 < cnt c * draws % sumOver classes cnt) ∧
  (∀ c ∈ classes, ∀ d ∈ classes,
    alloc c = cnt c * draws / sumOver classes cnt + 1 →
    alloc d = cnt d * draws / sumOver classes cnt →
    cnt d * draws % sumOver classes cnt ≤ cnt c * draws % sumOver classes cnt)

/-- The validity checks `StratifiedShuffleSplit` performs before yielding a
split (it raises `ValueError` otherwise): every class has at least two
members, and neither side of the split is smaller than the number of
classes. -/
def splitChecksOk (y : List String) : Bool :=
  (uniqueKeys y).all (fun c => decide (2 ≤ y.count c)) &&
  decide ((uniqueKeys y).length ≤ n_train_of y.length) &&
  decide ((uniqueKeys y).length ≤ n_test_of y.length)

/-- Relational embedding of one split yielded by
`StratifiedShuffleSplit(n_splits=1, test_size=0.2).split(X, y)` under an
arbitrary random state.  Per-class train allocations `n_i` are produced by
`_approximate_mode` on the class counts with `n_train` draws; per-class test
allocations `t_i` by `_approximate_mode` on the remaining counts with
`n_test` draws; the index lists then draw exactly `n_i c` resp. `t_i c`
distinct indices of each class `c` from a per-class permutation, so they are
duplicate-free, in range, and disjoint. -/
def IsSSSplit (y : List String) (train test : List Nat) : Prop :=
  splitChecksOk y = true ∧
  ∃ n_i t_i : String → Nat,
    ApproxMode (uniqueKeys y) (fun c => y.count c) (n_train_of y.length) n_i ∧
    ApproxMode (uniqueKeys y) (fun c => y.count c - n_i c) (n_test_of y.length) t_i ∧
    train.Nodup ∧ test.Nodup ∧
    (∀ i ∈ train, i < y.length) ∧ (∀ i ∈ test, i < y.length) ∧
    (∀ i ∈ train, i ∉ test) ∧
    (∀ c ∈ uniqueKeys y, (train.filter (fun i => y.getD i "" == c)).length = n_i c) ∧
    (∀ c ∈ uniqueKeys y, (test.filter (fun i => y.getD i "" == c)).length = t_i c)

/-- Embeds `ClassifiersTrainingFile.post` from `flask_app/app.py` as a
relation between the classifier record, the uploaded table, and the
observable outcome.  The classifier is assumed found (the `NotFound` branch
is not claim-relevant).  The only nondeterminism is the random state of the
stratified split, hence the existential over `IsSSSplit` in the success
branch. -/
def ClassifiersTrainingFile_post (clsf : Classifier) (table : List (List String))
    (out : PostOutcome) : Prop :=
  match clsf.train_set with
  | some _ =>
    out = { response := .error .alreadyExists, classifier := clsf
            files := [], jobs := [] }
  | none =>
    match _validate_training_file_and_get_data clsf.category_names table with
    | .error e =>
      out = { response := .error (.validation e), classifier := clsf
              files := [], jobs := [] }
    | .ok (table_headers, table_data) =>
      let y := table_data.map (fun row => row.getD 1 "")
      if splitChecksOk y then
        ∃ train_indices dev_indices : List Nat,
          IsSSSplit y train_indices dev_indices ∧
          out = { response := .ok ()
                  classifier := { clsf with train_set := some freshLabeledSet
                                            dev_set := some freshLabeledSet }
                  files := [("train.csv",
                             table_headers ::
                               train_indices.map (fun i => table_data.getD i [])),
                            ("dev.csv",
                             table_headers ::
                               dev_indices.map (fun i => table_data.getD i []))]
                  jobs := [{ labels := clsf.category_names
                             classifier_id := clsf.classifier_id }] }
      else
        out = { response := .error .valueErrorFromSplit, classifier := clsf
                files := [], jobs := [] }

/-- Values supplied for `category_names` in a classifier-creation request:
either a JSON string or some non-string JSON value. -/
inductive ReqValue where
  | str : String → ReqValue
  | nonStr : ReqValue
deriving DecidableEq, Repr

/-- Embeds the `category_names_type` converter defined inside
`Classifiers.__init__` in `flask_app/app.py`: rejects values that are not
strings and strings containing a comma. -/
def category_names_type (v : ReqValue) : Except String String :=
  match v with
  | .nonStr => .error "must be str"
  | .str s => if s.data.contains ',' then .error "cant contain commas" else .ok s

/-- Embeds flask_restful's `reqparse` applying `category_names_type` to each
supplied `category_names` value (`action="append"`); the first failing value
aborts the request with a 400 Bad Request. -/
def parse_category_names : List ReqValue → Except String (List String)
  | [] => .ok []
  | v :: rest =>
    match category_names_type v with
    | .error e => .error e
    | .ok s =>
      match parse_category_names rest with
      | .error e => .error e
      | .ok ss => .ok (s :: ss)

/-- Embeds `Classifiers.post` from `flask_app/app.py`: parse and validate
the supplied category names, require at least two of them, then create the
classifier record with fresh (absent) train and dev sets.  The id and
notification email are db-level concerns passed through. -/
def Classifiers_post (classifier_id : Nat) (notify_at_email name : String)
    (raw_category_names : List ReqValue) : Except RequestError Classifier :=
  match parse_category_names raw_category_names with
  | .error e => .error (.badRequest e)
  | .ok category_names =>
    if category_names.length < 2 then
      .error (.badRequest "must be at least two categories")
    else
      .ok { classifier_id := classifier_id
            name := name
            category_names := category_names
            notify_at_email := notify_at_email
            train_set := none
            dev_set := none }

/-- Sample classifier without a training set, used by concrete witnesses of
the upload endpoint. -/
def sampleClassifierNoSet : Classifier :=
  { classifier_id := 2
    name := "clf2"
    category_names := ["pos", "neg"]
    notify_at_email := "user@example.com"
    train_set := none
    dev_set := none }

/-- Sample table whose categories ("pos", "other") differ from the declared
set ("pos", "neg") in both directions. -/
def tableMismatch : List (List String) :=
  [["example", "category"],
   ["t1", "pos"], ["t2", "pos"], ["t3", "other"], ["t4", "other"]]

/-- Sample table whose category set equals the declared one but where "neg"
appears only once. -/
def tableOneNeg : List (List String) :=
  [["example", "category"],
   ["t1", "pos"], ["t2", "pos"], ["t3", "neg"]]

/-- Sample well-formed table with two categories of two examples each. -/
def tableSmall : List (List String) :=
  [["example", "category"],
   ["a", "pos"], ["b", "pos"], ["c", "neg"], ["d", "neg"]]

/-- Classifier record created by a successful `Classifiers.post` sample
request. -/
def createdSample : Classifier :=
  { classifier_id := 1
    name := "n"
    category_names := ["a", "b"]
    notify_at_email := "user@example.com"
    train_set := none
    dev_set := none }

/-- Label column of end-to-end scenario A: 20 rows, 10 of category "pos"
followed by 10 of category "neg". -/
def yScenarioA : List String := List.replicate 10 "pos" ++ List.replicate 10 "neg"

/-- One reachable train side for scenario A: 8 "pos" indices and 8 "neg"
indices. -/
def trainScenarioA : List Nat := [0, 1, 2, 3, 4, 5, 6, 7, 10, 11, 12, 13, 14, 15, 16, 17]

/-- The matching dev side for scenario A: 2 "pos" and 2 "neg" indices. -/
def devScenarioA : List Nat := [8, 9, 18, 19]

/-- Ten-row table, valid for declared categories "A" and "B", with two
examples of "A" and eight of "B". -/
def tableSkew : List (List String) :=
  [["example", "category"],
   ["a1", "A"], ["a2", "A"],
   ["b1", "B"], ["b2", "B"], ["b3", "B"], ["b4", "B"],
   ["b5", "B"], ["b6", "B"], ["b7", "B"], ["b8", "B"]]

/-- Label column of `tableSkew`. -/
def ySkew : List String := tableSkew.tail.map (fun row => row.getD 1 "")

/-- The train indices the stratified splitter allocates on `ySkew` (the
allocation is forced, the per-class permutation is not): both "A" rows and
six "B" rows. -/
def trainSkew : List Nat := [0, 1, 2, 3, 4, 5, 6, 7]

/-- The dev indices matching `trainSkew`: two "B" rows and no "A" row. -/
def devSkew : List Nat := [8, 9]

/-- C1: if the opaque classifier trainer raises, the Task Executor ends with
`error_encountered = true` and `completed = false` on both the train and dev
records, persists both records (the returned outcome is the persisted
state), and never invokes the Notification Dispatcher. -/
theorem classifier_training_failure_sets_error_and_never_notifies
    (clsf : Classifier) (ts ds : LabeledSet) (e : String)
    (hts : clsf.train_set = some ts) (hds : clsf.dev_set = some ds)
    (htc : ts.training_or_inference_completed = false)
    (hdc : ds.training_or_inference_completed = false) :
    ∃ out : ClassifierTaskOutcome,
      do_classifier_training_task clsf (.error e) = some out ∧
      out.train_set.error_encountered = true ∧
      out.dev_set.error_encountered = true ∧
      out.train_set.training_or_inference_completed = false ∧
      out.dev_set.training_or_inference_completed = false ∧
      out.emails = [] := by
  refine ⟨{ train_set := { ts with error_encountered := true }
            dev_set := { ds with error_encountered := true }
            emails := [] }, ?_, rfl, rfl, htc, hdc, rfl⟩
  unfold do_classifier_training_task
  rw [hts, hds]

theorem classifier_training_failure_witness :
    sampleClassifier.train_set = some freshLabeledSet ∧
    sampleClassifier.dev_set = some freshLabeledSet ∧
    freshLabeledSet.training_or_inference_completed = false ∧
    (∃ out : ClassifierTaskOutcome,
      do_classifier_training_task sampleClassifier (.error "trainer crashed") = some out ∧
      out.train_set.error_encountered = true ∧
      out.dev_set.error_encountered = true ∧
      out.train_set.training_or_inference_completed = false ∧
      out.dev_set.training_or_inference_completed = false ∧
      out.emails = []) :=
  ⟨rfl, rfl, rfl,
    classifier_training_failure_sets_error_and_never_notifies
      sampleClassifier freshLabeledSet freshLabeledSet "trainer crashed" rfl rfl rfl rfl⟩

/-- C2: if the opaque classifier trainer returns a metrics mapping, the Task
Executor sets `completed = true` on both records, attaches the metrics to
the dev record only (the train record's metrics are unchanged), dispatches
exactly one "training finished" notification to the resource's registered
email, and persists both records (the returned outcome is the persisted
state). -/
theorem classifier_training_success_completes_and_notifies_once
    (clsf : Classifier) (ts ds : LabeledSet) (m : Metrics)
    (hts : clsf.train_set = some ts) (hds : clsf.dev_set = some ds) :
    ∃ out : ClassifierTaskOutcome,
      do_classifier_training_task clsf (.ok m) = some out ∧
      out.train_set.training_or_inference_completed = true ∧
      out.dev_set.training_or_inference_completed = true ∧
      out.dev_set.metrics = some m ∧
      out.train_set.metrics = ts.metrics ∧
      out.emails = [{ email_template_name := "classifier_training_finished"
                      to_email := clsf.notify_at_email
                      fields := [("classifier_name", clsf.name)] }] := by
  refine ⟨{ train_set := { ts with training_or_inference_completed := true }
            dev_set := { ds with training_or_inference_completed := true
                                 metrics := some m }
            emails := [{ email_template_name := "classifier_training_finished"
                         to_email := clsf.notify_at_email
                         fields := [("classifier_name", clsf.name)] }] },
         ?_, rfl, rfl, rfl, rfl, rfl⟩
  unfold do_classifier_training_task
  rw [hts, hds]

theorem classifier_training_success_witness :
    sampleClassifier.train_set = some freshLabeledSet ∧
    sampleClassifier.dev_set = some freshLabeledSet ∧
    (∃ out : ClassifierTaskOutcome,
      do_classifier_training_task sampleClassifier (.ok [("accuracy", (9 : Rat) / 10)]) = some out ∧
      out.train_set.training_or_inference_completed = true ∧
      out.dev_set.training_or_inference_completed = true ∧
      out.dev_set.metrics = some [("accuracy", (9 : Rat) / 10)] ∧
      out.train_set.metrics = freshLabeledSet.metrics ∧
      out.emails = [{ email_template_name := "classifier_training_finished"
                      to_email := sampleClassifier.notify_at_email
                      fields := [("classifier_name", sampleClassifier.name)] }]) :=
  ⟨rfl, rfl,
    classifier_training_success_completes_and_notifies_once
      sampleClassifier freshLabeledSet freshLabeledSet
      [("accuracy", (9 : Rat) / 10)] rfl rfl⟩

/-- C3 counterexample: a topic-model job whose artifact-production step
(`model_topics_to_spreadsheet`) fails does NOT end with
`error_encountered = true` — the call sits outside the `try` block, so the
exception escapes uncaught; the record is persisted unchanged and no
notification is sent.  This refutes the claim that any failing step of the
topic-model trainer's work sets `error_encountered = true`. -/
theorem topic_model_step_failure_counterexample :
    do_topic_model_related_task sampleTopicModel (.ok ()) (.error "mallet failed") =
      some { lda_set := { lda_completed := false, error_encountered := false }
             emails := []
             uncaught := some "mallet failed" } := rfl

/-- C3 amended: if building the corpus or constructing the trainer fails,
the Task Executor sets `error_encountered = true`, does not notify, and
persists the record; if producing the keyword/per-document-topic artifacts
fails, however, the exception propagates uncaught, `error_encountered` is
left unchanged and no notification is sent, though the record is still
persisted by the `finally` block. -/
theorem topic_model_failure_handling_amended
    (tm : TopicModel) (s : LdaSet) (hs : tm.lda_set = some s) :
    (∀ (e : String) (sp : Except String Unit),
      do_topic_model_related_task tm (.error e) sp =
        some { lda_set := { s with error_encountered := true }
               emails := []
               uncaught := none }) ∧
    (∀ e : String,
      do_topic_model_related_task tm (.ok ()) (.error e) =
        some { lda_set := s, emails := [], uncaught := some e }) := by
  constructor
  · intro e sp
    unfold do_topic_model_related_task
    rw [hs]
  · intro e
    unfold do_topic_model_related_task
    rw [hs]

theorem topic_model_failure_handling_witness :
    sampleTopicModel.lda_set = some { lda_completed := false, error_encountered := false } ∧
    (∀ (e : String) (sp : Except String Unit),
      do_topic_model_related_task sampleTopicModel (.error e) sp =
        some { lda_set := { lda_completed := false, error_encountered := true }
               emails := []
               uncaught := none }) ∧
    (∀ e : String,
      do_topic_model_related_task sampleTopicModel (.ok ()) (.error e) =
        some { lda_set := { lda_completed := false, error_encountered := false }
               emails := []
               uncaught := some e }) :=
  ⟨rfl,
    topic_model_failure_handling_amended sampleTopicModel
      { lda_completed := false, error_encountered := false } rfl⟩

theorem not_lt_min_num_examples (n : Nat) : ¬ (n < min_num_examples_of n) := by
  unfold min_num_examples_of
  omega

/-- C9: the validator fails with the schema error exactly when the table
does not have two columns with the expected header pair `example`,
`category`; in particular a bad schema yields the schema error no matter
what the categories or the row count are, so the schema check precedes the
category and row-count checks. -/
theorem schema_check_first_iff (category_names : List String)
    (table : List (List String)) :
    _validate_training_file_and_get_data category_names table = .error .schemaError ↔
    ¬(table_has_num_columns table 2 = true ∧
      table_has_headers table ["example", "category"] = true) := by
  constructor
  · intro h hgood
    obtain ⟨h1, h2⟩ := hgood
    unfold _validate_training_file_and_get_data at h
    rw [h1, h2] at h
    rw [if_neg (not_lt_min_num_examples _)] at h
    simp only [Bool.not_true, Bool.false_eq_true, if_false] at h
    split at h
    · exact absurd h (by simp)
    split at h
    · exact absurd h (by simp)
    · exact absurd h (by simp)
  · intro h
    unfold _validate_training_file_and_get_data
    by_cases h1 : table_has_num_columns table 2 = true
    · have h2 : table_has_headers table ["example", "category"] = false := by
        cases hh : table_has_headers table ["example", "category"]
        · rfl
        · exact absurd ⟨h1, hh⟩ h
      rw [h1, h2]
      simp
    · have h1f : table_has_num_columns table 2 = false := by
        cases hh : table_has_num_columns table 2
        · rfl
        · exact absurd hh h1
      rw [h1f]
      simp

/-- C5: a table that passes the schema checks but whose observed category
set differs from the declared one (in either direction) is rejected by the
validator with the category-mismatch error, and the upload endpoint then
writes no train/dev files, enqueues no job and leaves the classifier record
unchanged. -/
theorem category_mismatch_rejected (clsf : Classifier)
    (table : List (List String))
    (hnone : clsf.train_set = none)
    (hcols : table_has_num_columns table 2 = true)
    (hhead : table_has_headers table ["example", "category"] = true)
    (hmis : sameSetB clsf.category_names
      (uniqueKeys (table.tail.map (fun row => row.getD 1 ""))) = false) :
    _validate_training_file_and_get_data clsf.category_names table =
      .error .categoryMismatch ∧
    ∀ out, ClassifiersTrainingFile_post clsf table out →
      out.response = .error (.validation .categoryMismatch) ∧
      out.classifier = clsf ∧ out.files = [] ∧ out.jobs = [] := by
  have hval : _validate_training_file_and_get_data clsf.category_names table =
      .error .categoryMismatch := by
    unfold _validate_training_file_and_get_data
    rw [hcols, hhead]
    simp only [Bool.not_true, if_false, Bool.false_eq_true]
    rw [if_neg (not_lt_min_num_examples _)]
    rw [hmis]
    simp
  refine ⟨hval, ?_⟩
  intro out hout
  simp only [ClassifiersTrainingFile_post, hnone, hval] at hout
  subst hout
  exact ⟨rfl, rfl, rfl, rfl⟩

theorem category_mismatch_witness :
    sampleClassifierNoSet.train_set = none ∧
    table_has_num_columns tableMismatch 2 = true ∧
    table_has_headers tableMismatch ["example", "category"] = true ∧
    sameSetB sampleClassifierNoSet.category_names
      (uniqueKeys (tableMismatch.tail.map (fun row => row.getD 1 ""))) = false ∧
    (_validate_training_file_and_get_data sampleClassifierNoSet.category_names
        tableMismatch = .error .categoryMismatch ∧
      ∀ out, ClassifiersTrainingFile_post sampleClassifierNoSet tableMismatch out →
        out.response = .error (.validation .categoryMismatch) ∧
        out.classifier = sampleClassifierNoSet ∧ out.files = [] ∧ out.jobs = []) :=
  ⟨rfl, rfl, rfl, rfl,
    category_mismatch_rejected sampleClassifierNoSet tableMismatch rfl rfl rfl rfl⟩

/-- C7: a table that passes the schema checks, whose categories equal the
declared set, but where some category has fewer than two examples, is
rejected by the validator with the distinct insufficient-per-category error
kind, and the offending category is named in the error's category list. -/
theorem insufficient_per_category_rejected (category_names : List String)
    (table : List (List String)) (c : String)
    (hcols : table_has_num_columns table 2 = true)
    (hhead : table_has_headers table ["example", "category"] = true)
    (hsame : sameSetB category_names
      (uniqueKeys (table.tail.map (fun row => row.getD 1 ""))) = true)
    (hc : c ∈ category_names)
    (hlt : (table.tail.map (fun row => row.getD 1 "")).count c < 2) :
    ∃ offending,
      _validate_training_file_and_get_data category_names table =
        .error (.insufficientPerCategory offending) ∧ c ∈ offending := by
  have hckeys : c ∈ uniqueKeys (table.tail.map (fun row => row.getD 1 "")) := by
    have := (List.all_eq_true.mp (Bool.and_elim_left hsame)) c hc
    exact of_decide_eq_true this
  have hmemf : c ∈ (uniqueKeys (table.tail.map (fun row => row.getD 1 ""))).filter
      (fun x => decide ((table.tail.map (fun row => row.getD 1 "")).count x < 2)) :=
    List.mem_filter.mpr ⟨hckeys, decide_eq_true hlt⟩
  have hne : ((uniqueKeys (table.tail.map (fun row => row.getD 1 ""))).filter
      (fun x => decide ((table.tail.map (fun row => row.getD 1 "")).count x < 2))).isEmpty
        = false := by
    rw [List.isEmpty_eq_false]
    exact List.ne_nil_of_mem hmemf
  refine ⟨_, ?_, hmemf⟩
  unfold _validate_training_file_and_get_data
  rw [hcols, hhead]
  simp only [Bool.not_true, if_false, Bool.false_eq_true]
  rw [if_neg (not_lt_min_num_examples _)]
  rw [hsame]
  simp only [Bool.not_true, if_false, Bool.false_eq_true]
  rw [hne]
  simp

theorem insufficient_per_category_witness :
    table_has_num_columns tableOneNeg 2 = true ∧
    table_has_headers tableOneNeg ["example", "category"] = true ∧
    sameSetB ["pos", "neg"]
      (uniqueKeys (tableOneNeg.tail.map (fun row => row.getD 1 ""))) = true ∧
    "neg" ∈ ["pos", "neg"] ∧
    (tableOneNeg.tail.map (fun row => row.getD 1 "")).count "neg" < 2 ∧
    (∃ offending,
      _validate_training_file_and_get_data ["pos", "neg"] tableOneNeg =
        .error (.insufficientPerCategory offending) ∧ "neg" ∈ offending) :=
  ⟨rfl, rfl, rfl, by decide, by decide,
    insufficient_per_category_rejected ["pos", "neg"] tableOneNeg "neg"
      rfl rfl rfl (by decide) (by decide)⟩

/-- C6: the claim is refuted by the code.  The row-count guard compares the
number of data rows with `int(len(table_data) * TEST_SET_SPLIT)`, a value
that never exceeds the row count itself, so the insufficient-data rejection
is unreachable: no table, however small, is ever rejected for having too few
rows.  In particular the four-row `tableSmall` sails through validation. -/
theorem insufficient_data_check_never_fires :
    (∀ (category_names : List String) (table : List (List String)),
      _validate_training_file_and_get_data category_names table ≠
        .error .insufficientData) ∧
    _validate_training_file_and_get_data ["pos", "neg"] tableSmall =
      .ok (["example", "category"], tableSmall.tail) := by
  constructor
  · intro category_names table
    unfold _validate_training_file_and_get_data
    rw [if_neg (not_lt_min_num_examples _)]
    split
    · simp
    split
    · simp
    split
    · simp
    split
    · simp
    · simp
  · rfl

/-- C8: uploading a dataset to a classifier that already has a training set
fails with the already-exists error; the classifier record is unchanged, no
files are written and no job is enqueued. -/
theorem duplicate_training_set_rejected (clsf : Classifier) (ls : LabeledSet)
    (table : List (List String)) (h : clsf.train_set = some ls) :
    ∀ out, ClassifiersTrainingFile_post clsf table out →
      out.response = .error .alreadyExists ∧ out.classifier = clsf ∧
      out.files = [] ∧ out.jobs = [] := by
  intro out hout
  simp only [ClassifiersTrainingFile_post, h] at hout
  subst hout
  exact ⟨rfl, rfl, rfl, rfl⟩

theorem duplicate_training_set_witness :
    sampleClassifier.train_set = some freshLabeledSet ∧
    (({ response := .error .alreadyExists, classifier := sampleClassifier
        files := [], jobs := [] } : PostOutcome).response = .error .alreadyExists ∧
      ({ response := .error .alreadyExists, classifier := sampleClassifier
         files := [], jobs := [] } : PostOutcome).classifier = sampleClassifier ∧
      ({ response := .error .alreadyExists, classifier := sampleClassifier
         files := [], jobs := [] } : PostOutcome).files = [] ∧
      ({ response := .error .alreadyExists, classifier := sampleClassifier
         files := [], jobs := [] } : PostOutcome).jobs = []) :=
  ⟨rfl,
    duplicate_training_set_rejected sampleClassifier freshLabeledSet tableSmall rfl
      { response := .error .alreadyExists, classifier := sampleClassifier
        files := [], jobs := [] } rfl⟩

theorem category_names_type_ok (v : ReqValue) (s : String)
    (h : category_names_type v = .ok s) : s.data.contains ',' = false := by
  cases v with
  | nonStr => exact absurd h (by simp [category_names_type])
  | str t =>
    simp only [category_names_type] at h
    cases hc : t.data.contains ',' with
    | true => rw [hc] at h; exact absurd h (by simp)
    | false =>
      rw [hc] at h
      simp only [Bool.false_eq_true, if_false] at h
      cases h
      exact hc

theorem parse_category_names_ok_shape (vals : List ReqValue) (ss : List String)
    (h : parse_category_names vals = .ok ss) :
    ss.length = vals.length ∧ ∀ s ∈ ss, s.data.contains ',' = false := by
  induction vals generalizing ss with
  | nil =>
    cases h
    exact ⟨rfl, by simp⟩
  | cons v rest ih =>
    unfold parse_category_names at h
    cases hv : category_names_type v with
    | error e => rw [hv] at h; exact absurd h (by simp)
    | ok s =>
      rw [hv] at h
      cases hr : parse_category_names rest with
      | error e => rw [hr] at h; exact absurd h (by simp)
      | ok ss' =>
        rw [hr] at h
        cases h
        obtain ⟨hlen, hcomma⟩ := ih ss' hr
        refine ⟨by simp [hlen], ?_⟩
        intro s' hs'
        rcases List.mem_cons.mp hs' with h1 | h2
        · subst h1; exact category_names_type_ok v s' hv
        · exact hcomma s' h2

theorem parse_category_names_error_of_bad (vals : List ReqValue) (v : ReqValue)
    (hv : v ∈ vals)
    (hbad : v = .nonStr ∨ ∃ s, v = .str s ∧ s.data.contains ',' = true) :
    ∃ e, parse_category_names vals = .error e := by
  have hbadty : ∃ e, category_names_type v = .error e := by
    rcases hbad with h | ⟨s, hvs, hcomma⟩
    · subst h; exact ⟨_, rfl⟩
    · subst hvs
      refine ⟨"cant contain commas", ?_⟩
      simp only [category_names_type]
      rw [hcomma]
      simp
  induction vals with
  | nil => exact absurd hv (List.not_mem_nil v)
  | cons w rest ih =>
    rcases List.mem_cons.mp hv with h1 | h2
    · subst h1
      obtain ⟨e, he⟩ := hbadty
      exact ⟨e, by simp [parse_category_names, he]⟩
    · cases hw : category_names_type w with
      | error e => exact ⟨e, by simp [parse_category_names, hw]⟩
      | ok s =>
        obtain ⟨e, he⟩ := ih h2
        exact ⟨e, by simp [parse_category_names, hw, he]⟩

/-- C10: creating a classifier fails with a 400 Bad Request whenever fewer
than two category names are supplied, or whenever any supplied value is not
a string or contains a comma; a successfully created classifier therefore
always has at least two comma-free category names. -/
theorem classifier_creation_category_validation (cid : Nat) (em nm : String)
    (vals : List ReqValue) :
    (vals.length < 2 →
      ∃ msg, Classifiers_post cid em nm vals = .error (.badRequest msg)) ∧
    ((∃ v ∈ vals, v = .nonStr ∨ ∃ s, v = .str s ∧ s.data.contains ',' = true) →
      ∃ msg, Classifiers_post cid em nm vals = .error (.badRequest msg)) ∧
    (∀ clsf, Classifiers_post cid em nm vals = .ok clsf →
      2 ≤ clsf.category_names.length ∧
      ∀ s ∈ clsf.category_names, s.data.contains ',' = false) := by
  refine ⟨?_, ?_, ?_⟩
  · intro hlen
    cases hp : parse_category_names vals with
    | error e => exact ⟨e, by simp [Classifiers_post, hp]⟩
    | ok ss =>
      have hss : ss.length < 2 := by
        rw [(parse_category_names_ok_shape vals ss hp).1]
        exact hlen
      exact ⟨"must be at least two categories", by simp [Classifiers_post, hp, if_pos hss]⟩
  · rintro ⟨v, hv, hbad⟩
    obtain ⟨e, he⟩ := parse_category_names_error_of_bad vals v hv hbad
    exact ⟨e, by simp [Classifiers_post, he]⟩
  · intro clsf hok
    cases hp : parse_category_names vals with
    | error e => simp [Classifiers_post, hp] at hok
    | ok ss =>
      by_cases hlen2 : ss.length < 2
      · simp [Classifiers_post, hp, hlen2] at hok
      · simp only [Classifiers_post, hp] at hok
        rw [if_neg hlen2] at hok
        injection hok with h
        subst h
        obtain ⟨hlen, hcomma⟩ := parse_category_names_ok_shape vals ss hp
        refine ⟨?_, hcomma⟩
        show 2 ≤ ss.length
        omega

theorem classifier_creation_witness :
    Classifiers_post 1 "user@example.com" "n" [.str "a", .str "b"] = .ok createdSample ∧
    2 ≤ createdSample.category_names.length ∧
    ∀ s ∈ createdSample.category_names, s.data.contains ',' = false :=
  ⟨rfl,
    (classifier_creation_category_validation 1 "user@example.com" "n"
        [.str "a", .str "b"]).2.2 createdSample rfl⟩

theorem mem_uniqueKeysAux (l : List String) :
    ∀ (seen : List String) (a : String),
      a ∈ uniqueKeysAux seen l ↔ a ∈ l ∧ a ∉ seen := by
  induction l with
  | nil => intro seen a; simp [uniqueKeysAux]
  | cons c rest ih =>
    intro seen a
    unfold uniqueKeysAux
    by_cases hc : c ∈ seen
    · rw [if_pos hc, ih seen a]
      constructor
      · rintro ⟨h1, h2⟩
        exact ⟨List.mem_cons_of_mem c h1, h2⟩
      · rintro ⟨h1, h2⟩
        rcases List.mem_cons.mp h1 with rfl | h1
        · exact absurd hc h2
        · exact ⟨h1, h2⟩
    · rw [if_neg hc]
      constructor
      · intro h
        rcases List.mem_cons.mp h with rfl | h
        · exact ⟨List.mem_cons_self a rest, hc⟩
        · obtain ⟨h1, h2⟩ := (ih (c :: seen) a).mp h
          exact ⟨List.mem_cons_of_mem c h1,
                 fun hs => h2 (List.mem_cons_of_mem c hs)⟩
      · rintro ⟨h1, h2⟩
        rcases List.mem_cons.mp h1 with rfl | h1
        · exact List.mem_cons_self a _
        · by_cases hac : a = c
          · subst hac
            exact List.mem_cons_self a _
          · exact List.mem_cons_of_mem c ((ih (c :: seen) a).mpr
              ⟨h1, fun hs => (List.mem_cons.mp hs).elim hac h2⟩)

theorem mem_uniqueKeys (l : List String) (a : String) :
    a ∈ uniqueKeys l ↔ a ∈ l := by
  unfold uniqueKeys
  rw [mem_uniqueKeysAux]
  simp

theorem nodup_uniqueKeysAux (l : List String) :
    ∀ seen : List String, (uniqueKeysAux seen l).Nodup := by
  induction l with
  | nil => intro seen; simp [uniqueKeysAux]
  | cons c rest ih =>
    intro seen
    unfold uniqueKeysAux
    by_cases hc : c ∈ seen
    · rw [if_pos hc]; exact ih seen
    · rw [if_neg hc]
      refine List.nodup_cons.mpr ⟨?_, ih (c :: seen)⟩
      intro hmem
      exact ((mem_uniqueKeysAux rest (c :: seen) c).mp hmem).2
        (List.mem_cons_self c seen)

theorem nodup_uniqueKeys (l : List String) : (uniqueKeys l).Nodup :=
  nodup_uniqueKeysAux l []

theorem sumOver_congr (ks : List String) (f g : String → Nat)
    (h : ∀ c ∈ ks, f c = g c) : sumOver ks f = sumOver ks g := by
  unfold sumOver
  rw [List.map_congr_left h]

theorem sumOver_add (ks : List String) (f g : String → Nat) :
    sumOver ks (fun c => f c + g c) = sumOver ks f + sumOver ks g := by
  induction ks with
  | nil => rfl
  | cons k ks ih =>
    unfold sumOver at *
    simp only [List.map_cons, List.sum_cons]
    omega

theorem sumOver_sub (ks : List String) (f g : String → Nat)
    (h : ∀ c ∈ ks, g c ≤ f c) :
    sumOver ks (fun c => f c - g c) = sumOver ks f - sumOver ks g ∧
    sumOver ks g ≤ sumOver ks f := by
  induction ks with
  | nil => exact ⟨rfl, Nat.le_refl 0⟩
  | cons k ks ih =>
    obtain ⟨ih1, ih2⟩ := ih (fun d hd => h d (List.mem_cons_of_mem k hd))
    have hk := h k (List.mem_cons_self k ks)
    unfold sumOver at *
    simp only [List.map_cons, List.sum_cons] at *
    omega

theorem sumOver_indicator_zero (x : String) :
    ∀ ks : List String, x ∉ ks →
      sumOver ks (fun c => if x = c then 1 else 0) = 0 := by
  intro ks
  induction ks with
  | nil => intro _; rfl
  | cons k ks ih =>
    intro hx
    unfold sumOver at *
    simp only [List.map_cons, List.sum_cons]
    rw [if_neg (fun h => hx (by rw [h]; exact List.mem_cons_self k ks)),
        ih (fun h => hx (List.mem_cons_of_mem k h))]

theorem sumOver_indicator (x : String) :
    ∀ ks : List String, ks.Nodup → x ∈ ks →
      sumOver ks (fun c => if x = c then 1 else 0) = 1 := by
  intro ks
  induction ks with
  | nil => intro _ hx; exact absurd hx (List.not_mem_nil x)
  | cons k ks ih =>
    intro hnd hx
    rcases List.mem_cons.mp hx with rfl | hx2
    · have h0 := sumOver_indicator_zero x ks (List.nodup_cons.mp hnd).1
      unfold sumOver at *
      simp only [List.map_cons, List.sum_cons]
      rw [h0]
      simp
    · have hxk : x ≠ k := fun h => (List.nodup_cons.mp hnd).1 (h ▸ hx2)
      have hrec := ih (List.nodup_cons.mp hnd).2 hx2
      unfold sumOver at *
      simp only [List.map_cons, List.sum_cons]
      rw [if_neg hxk, hrec]

theorem sum_count_keys {α : Type} (key : α → String) :
    ∀ (l : List α) (ks : List String), ks.Nodup → (∀ a ∈ l, key a ∈ ks) →
      sumOver ks (fun c => l.countP (fun a => key a == c)) = l.length := by
  intro l
  induction l with
  | nil =>
    intro ks _ _
    have : sumOver ks (fun c => ([] : List α).countP (fun a => key a == c)) =
        sumOver ks (fun _ => 0) :=
      sumOver_congr ks _ _ (fun c _ => List.countP_nil _)
    rw [this]
    unfold sumOver
    simp
  | cons a l ih =>
    intro ks hnd hmem
    have hcount : ∀ c ∈ ks, (a :: l).countP (fun x => key x == c) =
        l.countP (fun x => key x == c) + (if key a = c then 1 else 0) := by
      intro c _
      rw [List.countP_cons]
      congr 1
      by_cases h : key a = c
      · simp [h]
      · simp [h]
    rw [sumOver_congr ks _ _ hcount,
        sumOver_add ks _ _,
        ih ks hnd (fun x hx => hmem x (List.mem_cons_of_mem a hx)),
        sumOver_indicator (key a) ks hnd (hmem a (List.mem_cons_self a l))]
    simp

theorem sss_count_sum (y : List String) :
    sumOver (uniqueKeys y) (fun c => y.count c) = y.length := by
  have h := sum_count_keys (fun x : String => x) y (uniqueKeys y)
    (nodup_uniqueKeys y) (fun a ha => (mem_uniqueKeys y a).mpr ha)
  rw [← h]
  exact sumOver_congr _ _ _ (fun c _ => List.count_eq_countP c y)

theorem getD_mem_of_lt (y : List String) (i : Nat) (h : i < y.length) :
    y.getD i "" ∈ y := by
  rw [List.getD_eq_getElem y "" h]
  exact List.getElem_mem h

theorem sss_filter_sum (y : List String) (l : List Nat) (f : String → Nat)
    (hb : ∀ i ∈ l, i < y.length)
    (hf : ∀ c ∈ uniqueKeys y, (l.filter (fun i => y.getD i "" == c)).length = f c) :
    l.length = sumOver (uniqueKeys y) f := by
  have h := sum_count_keys (fun i => y.getD i "") l (uniqueKeys y)
    (nodup_uniqueKeys y)
    (fun i hi => (mem_uniqueKeys y _).mpr (getD_mem_of_lt y i (hb i hi)))
  rw [← h]
  apply sumOver_congr
  intro c hc
  rw [List.countP_eq_length_filter]
  exact hf c hc


theorem sss_alloc_bounds (y : List String) (n_i t_i : String → Nat)
    (hN : ApproxMode (uniqueKeys y) (fun c => y.count c) (n_train_of y.length) n_i)
    (hT : ApproxMode (uniqueKeys y) (fun c => y.count c - n_i c)
      (n_test_of y.length) t_i) :
    ∀ c ∈ uniqueKeys y, n_i c ≤ y.count c ∧ t_i c = y.count c - n_i c := by
  have htot : sumOver (uniqueKeys y) (fun c => y.count c) = y.length :=
    sss_count_sum y
  have hle : ∀ c ∈ uniqueKeys y, n_i c ≤ y.count c := by
    intro c hc
    have hcy : c ∈ y := (mem_uniqueKeys y c).mp hc
    have hny : 0 < y.length := List.length_pos.mpr (List.ne_nil_of_mem hcy)
    have hcount : 0 < y.count c := List.count_pos_iff.mpr hcy
    have hntlt : n_train_of y.length < y.length := by
      unfold n_train_of n_test_of
      omega
    have hfloorlt : y.count c * n_train_of y.length / y.length < y.count c := by
      rw [Nat.div_lt_iff_lt_mul hny]
      exact mul_lt_mul_of_pos_left hntlt hcount
    rcases hN.2.1 c hc with heq | heq
    · rw [heq, htot]
      exact Nat.le_of_lt hfloorlt
    · rw [heq, htot]
      show y.count c * n_train_of y.length / y.length + 1 ≤ y.count c
      omega
  have htot2 : sumOver (uniqueKeys y) (fun c => y.count c - n_i c) =
      n_test_of y.length := by
    rw [(sumOver_sub (uniqueKeys y) (fun c => y.count c) n_i hle).1, htot, hN.1]
    unfold n_train_of n_test_of
    omega
  intro c hc
  refine ⟨hle c hc, ?_⟩
  have hcy : c ∈ y := (mem_uniqueKeys y c).mp hc
  have hny : 0 < y.length := List.length_pos.mpr (List.ne_nil_of_mem hcy)
  have hntest : 0 < n_test_of y.length := by
    unfold n_test_of
    omega
  rcases hT.2.1 c hc with heq | heq
  · rw [heq, htot2, Nat.mul_div_cancel _ hntest]
  · exfalso
    have hrem := hT.2.2.1 c hc heq
    rw [htot2, Nat.mul_mod_left] at hrem
    exact Nat.lt_irrefl 0 hrem

theorem sss_lengths (y : List String) (train test : List Nat)
    (h : IsSSSplit y train test) :
    train.length = n_train_of y.length ∧ test.length = n_test_of y.length := by
  obtain ⟨-, n_i, t_i, hN, hT, -, -, hbtr, hbte, -, hftr, hfte⟩ := h
  constructor
  · rw [sss_filter_sum y train n_i hbtr hftr]
    exact hN.1
  · rw [sss_filter_sum y test t_i hbte hfte]
    exact hT.1

theorem sss_perm (y : List String) (train test : List Nat)
    (h : IsSSSplit y train test) :
    (train ++ test).Perm (List.range y.length) := by
  have hlens := sss_lengths y train test h
  obtain ⟨-, n_i, t_i, hN, hT, hndtr, hndte, hbtr, hbte, hdisj, hftr, hfte⟩ := h
  have hnd : (train ++ test).Nodup :=
    List.Nodup.append hndtr hndte (fun i hi hj => hdisj i hi hj)
  have hsub : train ++ test ⊆ List.range y.length := by
    intro i hi
    rw [List.mem_range]
    rcases List.mem_append.mp hi with hh | hh
    · exact hbtr i hh
    · exact hbte i hh
  have hlen : (train ++ test).length = y.length := by
    rw [List.length_append, hlens.1, hlens.2]
    unfold n_train_of n_test_of
    omega
  refine (List.subperm_of_subset hnd hsub).perm_of_length_le ?_
  rw [List.length_range]
  exact Nat.le_of_eq hlen.symm

theorem map_getD_range (l : List String) :
    (List.range l.length).map (fun i => l.getD i "") = l := by
  apply List.ext_getElem
  · simp
  · intro i h1 h2
    simp only [List.getElem_map, List.getElem_range]
    exact List.getD_eq_getElem l "" h2

/-- C4 counterexample: the ten-row `tableSkew` (two rows of category "A",
eight of "B") passes validation for the declared categories "A", "B", yet
the stratified splitter's forced allocation puts both "A" rows into the
train side, so the dev output's category set is only "B" — it does not equal
the declared set.  The exhibited index lists are a reachable split (the
train allocation 2/6 is the unique one `_approximate_mode` can produce
here: the "A" remainder 0.6 strictly exceeds the "B" remainder 0.4). -/
theorem split_category_coverage_counterexample :
    _validate_training_file_and_get_data ["A", "B"] tableSkew =
      .ok (["example", "category"], tableSkew.tail) ∧
    IsSSSplit ySkew trainSkew devSkew ∧
    devSkew.map (fun i => ySkew.getD i "") = ["B", "B"] := by
  refine ⟨rfl, ?_, rfl⟩
  exact ⟨by decide, fun c => if c = "A" then 2 else 6,
         fun c => if c = "A" then 0 else 2, by decide⟩

/-- C4 amended: every split the stratified splitter can yield is a strict
partition of the input rows at the 80/20 ratio — the concatenated train and
dev index lists are a permutation of all row indices, mapping them back to
rows permutes the input rows, the dev size is `ceil(n/5)` and the train size
its complement; and in scenario A (20 rows, 10 "pos" and 10 "neg") the split
is forced to 16 train rows and 4 dev rows with both categories present in
both subsets.  The claim's stronger assertion that both outputs' category
sets equal the declared set for every valid table is dropped: the
counterexample refutes it. -/
theorem split_partition_and_scenario_amended :
    (∀ (y : List String) (train test : List Nat), IsSSSplit y train test →
      (train ++ test).Perm (List.range y.length) ∧
      ((train ++ test).map (fun i => y.getD i "")).Perm y ∧
      train.length = n_train_of y.length ∧
      test.length = n_test_of y.length) ∧
    (∀ train test : List Nat, IsSSSplit yScenarioA train test →
      train.length = 16 ∧ test.length = 4 ∧
      (∃ i ∈ train, yScenarioA.getD i "" = "pos") ∧
      (∃ i ∈ train, yScenarioA.getD i "" = "neg") ∧
      (∃ i ∈ test, yScenarioA.getD i "" = "pos") ∧
      (∃ i ∈ test, yScenarioA.getD i "" = "neg")) := by
  constructor
  · intro y train test h
    refine ⟨sss_perm y train test h, ?_,
            (sss_lengths y train test h).1, (sss_lengths y train test h).2⟩
    have hp := (sss_perm y train test h).map (fun i => y.getD i "")
    rw [map_getD_range y] at hp
    exact hp
  · intro train test h
    have hlens := sss_lengths yScenarioA train test h
    obtain ⟨-, n_i, t_i, hN, hT, -, -, -, -, -, hftr, hfte⟩ := h
    have hmp : "pos" ∈ uniqueKeys yScenarioA := by decide
    have hmn : "neg" ∈ uniqueKeys yScenarioA := by decide
    have hNpos : n_i "pos" = 8 := by
      rcases hN.2.1 "pos" hmp with heq | heq
      · rw [heq]; decide
      · exact absurd (hN.2.2.1 "pos" hmp heq) (by decide)
    have hNneg : n_i "neg" = 8 := by
      rcases hN.2.1 "neg" hmn with heq | heq
      · rw [heq]; decide
      · exact absurd (hN.2.2.1 "neg" hmn heq) (by decide)
    have hTb := sss_alloc_bounds yScenarioA n_i t_i hN hT
    have hTpos : t_i "pos" = 2 := by
      have ht := (hTb "pos" hmp).2
      rw [hNpos] at ht
      rw [ht]
      decide
    have hTneg : t_i "neg" = 2 := by
      have ht := (hTb "neg" hmn).2
      rw [hNneg] at ht
      rw [ht]
      decide
    refine ⟨by rw [hlens.1]; decide, by rw [hlens.2]; decide, ?_, ?_, ?_, ?_⟩
    · have hflen := hftr "pos" hmp
      rw [hNpos] at hflen
      have hne : train.filter (fun i => yScenarioA.getD i "" == "pos") ≠ [] := by
        intro hnil
        rw [hnil] at hflen
        simp at hflen
      obtain ⟨i, hi⟩ := List.exists_mem_of_ne_nil _ hne
      obtain ⟨hit, hip⟩ := List.mem_filter.mp hi
      exact ⟨i, hit, by simpa using hip⟩
    · have hflen := hftr "neg" hmn
      rw [hNneg] at hflen
      have hne : train.filter (fun i => yScenarioA.getD i "" == "neg") ≠ [] := by
        intro hnil
        rw [hnil] at hflen
        simp at hflen
      obtain ⟨i, hi⟩ := List.exists_mem_of_ne_nil _ hne
      obtain ⟨hit, hip⟩ := List.mem_filter.mp hi
      exact ⟨i, hit, by simpa using hip⟩
    · have hflen := hfte "pos" hmp
      rw [hTpos] at hflen
      have hne : test.filter (fun i => yScenarioA.getD i "" == "pos") ≠ [] := by
        intro hnil
        rw [hnil] at hflen
        simp at hflen
      obtain ⟨i, hi⟩ := List.exists_mem_of_ne_nil _ hne
      obtain ⟨hit, hip⟩ := List.mem_filter.mp hi
      exact ⟨i, hit, by simpa using hip⟩
    · have hflen := hfte "neg" hmn
      rw [hTneg] at hflen
      have hne : test.filter (fun i => yScenarioA.getD i "" == "neg") ≠ [] := by
        intro hnil
        rw [hnil] at hflen
        simp at hflen
      obtain ⟨i, hi⟩ := List.exists_mem_of_ne_nil _ hne
      obtain ⟨hit, hip⟩ := List.mem_filter.mp hi
      exact ⟨i, hit, by simpa using hip⟩

theorem split_partition_scenario_witness :
    IsSSSplit yScenarioA trainScenarioA devScenarioA ∧
    (trainScenarioA.length = 16 ∧ devScenarioA.length = 4 ∧
      (∃ i ∈ trainScenarioA, yScenarioA.getD i "" = "pos") ∧
      (∃ i ∈ trainScenarioA, yScenarioA.getD i "" = "neg") ∧
      (∃ i ∈ devScenarioA, yScenarioA.getD i "" = "pos") ∧
      (∃ i ∈ devScenarioA, yScenarioA.getD i "" = "neg")) :=
  have hmem : IsSSSplit yScenarioA trainScenarioA devScenarioA :=
    ⟨by decide, fun _ => 8, fun _ => 2, by decide⟩
  ⟨hmem, split_partition_and_scenario_amended.2 trainScenarioA devScenarioA hmem⟩
